import Mathlib

/-!
Verification of the keyword-matching and story-selection pipeline of
`src/main.py` (a Hacker News RSS filter).

The Python functions are shallowly embedded as Lean functions.  Network
access (`requests.get`) is modelled by oracle functions passed as
parameters: a story fetch oracle `Nat → Option StoryRecord`, a comment
fetch oracle `Nat → Option CommentRecord`, and a transport oracle for the
raw HTTP layer.  Python `dict` records are modelled as structures whose
optional fields (`Option _`) encode key absence.  Strings are ASCII in all
claims; the word-character class of the regex `\b` anchor is modelled as
ASCII alphanumerics plus underscore, and `re.IGNORECASE` as ASCII
lower-casing of both sides, matching the behaviour of the Python code on
ASCII input.
-/

/-! ## Word characters and the regex word-boundary anchor -/

/-- Word-constituent character class of the regex `\b` anchor:
alphanumeric or underscore. -/
def isWordChar (c : Char) : Bool := c.isAlphanum || c = '_'

/-- Whether the character at position `i` of `cs` is a word character;
positions past the end count as non-word (string end). -/
def wordAt (cs : List Char) (i : Nat) : Bool :=
  (cs[i]?.map isWordChar).getD false

/-- Whether the character just before position `i` is a word character;
position `0` has no predecessor (string start counts as non-word). -/
def prevWordAt (cs : List Char) : Nat → Bool
  | 0 => false
  | j + 1 => wordAt cs j

/-- Regex `\b` at position `i` of `cs`: exactly one of the neighbouring
characters is a word character. -/
def boundaryAt (cs : List Char) (i : Nat) : Bool :=
  prevWordAt cs i != wordAt cs i

/-- Case-insensitive equality of character lists (ASCII lower-casing,
modelling `re.IGNORECASE`). -/
def lowerEq (a b : List Char) : Bool :=
  decide (a.map Char.toLower = b.map Char.toLower)

/-- One attempted match of the pattern `\b<keyword>\b` at start position
`i` of the text: a `\b` boundary at `i`, the literal keyword
case-insensitively at `i`, and a `\b` boundary after it. -/
def matchesAt (cs ks : List Char) (i : Nat) : Bool :=
  boundaryAt cs i && lowerEq ((cs.drop i).take ks.length) ks &&
    boundaryAt cs (i + ks.length)

/-- Embedding of `matches_keyword` from `src/main.py`:
`re.search(r"\b" + re.escape(keyword) + r"\b", text, re.IGNORECASE)`.
`re.escape` makes the keyword a literal; `re.search` tries every start
position from `0` to `len(text)` inclusive. -/
def matches_keyword (text keyword : String) : Bool :=
  (List.range (text.data.length + 1)).any fun i =>
    matchesAt text.data keyword.data i

/-- One occurrence of the keyword at position `i` in the sense of the
specification sentence: the literal keyword occurs case-insensitively at
`i` within the text, and the span is not immediately adjacent on either
side to a word character (string start and end count as boundaries). -/
def specMatchAt (cs ks : List Char) (i : Nat) : Bool :=
  !prevWordAt cs i && lowerEq ((cs.drop i).take ks.length) ks &&
    decide (i + ks.length ≤ cs.length) && !wordAt cs (i + ks.length)

/-- The matcher behaviour as worded by the specification: the keyword
occurs in the text as a literal substring, compared case-insensitively,
with the match span not immediately adjacent on either side to an
alphanumeric or underscore character. -/
def spec_matches_keyword (text keyword : String) : Bool :=
  (List.range (text.data.length + 1)).any fun i =>
    specMatchAt text.data keyword.data i

/-! ## Data model -/

/-- A resolved story record (Python dict from the items endpoint);
`none` encodes an absent key. -/
structure StoryRecord where
  id : Nat
  title : Option String := none
  url : Option String := none
  time : Int := 0
  kids : Option (List Nat) := none
deriving DecidableEq, Repr

/-- A resolved comment record (Python dict from the items endpoint);
`none` encodes an absent key. -/
structure CommentRecord where
  id : Nat
  text : Option String := none
  author : Option String := none
  time : Option Int := none
deriving DecidableEq, Repr

/-- The synthesized discussion-page link
`https://news.ycombinator.com/item?id={id}`. -/
def discussion_url (id : Nat) : String :=
  "https://news.ycombinator.com/item?id=" ++ toString id

/-! ## Remote content fetcher -/

/-- Outcome of one bounded-timeout HTTP round trip, after
`raise_for_status`: either a parsed payload or a transport-level failure
(timeout, connection error, non-success status), which Python surfaces as
a `requests.RequestException`. -/
inductive Transport (α : Type) where
  | success (value : α)
  | failure (error : String)
deriving DecidableEq, Repr

/-- Embedding of `fetch_top_stories`: on success the fetched id list
truncated to `limit` (`response.json()[:limit]`), on failure the caught
exception is logged and `[]` is returned. -/
def fetch_top_stories (net : Transport (List Nat)) (limit : Nat) : List Nat :=
  match net with
  | .success ids => ids.take limit
  | .failure _ => []

/-- Embedding of `fetch_story_details`: the parsed record on success,
`None` when the caught `RequestException` is logged. -/
def fetch_story_details (net : Nat → Transport StoryRecord)
    (story_id : Nat) : Option StoryRecord :=
  match net story_id with
  | .success story => some story
  | .failure _ => none

/-- Embedding of `fetch_comment_details`: the parsed record on success,
`None` when the caught `RequestException` is logged. -/
def fetch_comment_details (net : Nat → Transport CommentRecord)
    (comment_id : Nat) : Option CommentRecord :=
  match net comment_id with
  | .success comment => some comment
  | .failure _ => none

/-! ## Comment enrichment -/

/-- Embedding of `fetch_top_comment`, with the comment fetch
(`fetch_comment_details`) abstracted as an oracle: `story.get("kids", [])`,
return `None` when empty, otherwise resolve `kids[0]` and return its
`text` when the fetch succeeded and the key is present, else `None`. -/
def fetch_top_comment (fetch_comment : Nat → Option CommentRecord)
    (story : StoryRecord) : Option String :=
  match story.kids.getD [] with
  | [] => none
  | top_comment_id :: _ =>
    match fetch_comment top_comment_id with
    | none => none
    | some comment => comment.text

/-! ## Story selection pipeline -/

/-- Embedding of `filter_stories`, with the story fetch abstracted as an
oracle.  Per iteration: skip when the fetch failed or the record has no
title; backfill a missing `url` with the discussion link; keep the record
when `keywords` is empty or some keyword matches the title.  The url
backfill does not touch the `title` field, so the bound `title` is the
one read by the Python code after the backfill. -/
def filter_stories (fetch_story : Nat → Option StoryRecord)
    (story_ids : List Nat) (keywords : List String) : List StoryRecord :=
  match story_ids with
  | [] => []
  | story_id :: rest =>
    match fetch_story story_id with
    | none => filter_stories fetch_story rest keywords
    | some story =>
      match story.title with
      | none => filter_stories fetch_story rest keywords
      | some title =>
        let story :=
          if story.url = none then
            { story with url := some (discussion_url story.id) }
          else story
        if keywords.isEmpty ||
            keywords.any (fun keyword => matches_keyword title keyword) then
          story :: filter_stories fetch_story rest keywords
        else
          filter_stories fetch_story rest keywords

/-- The decision `filter_stories` takes for one fetched record: `none`
when it is skipped, `some` of the (possibly url-backfilled) record when it
is kept. -/
def process_story (keywords : List String) (story : StoryRecord) :
    Option StoryRecord :=
  match story.title with
  | none => none
  | some title =>
    let story :=
      if story.url = none then
        { story with url := some (discussion_url story.id) }
      else story
    if keywords.isEmpty ||
        keywords.any (fun keyword => matches_keyword title keyword) then
      some story
    else none

/-! ## Feed emission summary -/

/-- Embedding of the per-story description logic inside `generate_rss`:
use the top comment when Python-truthy (not `None` and not the empty
string); otherwise fall back to `Article: {url}` when the story url is
truthy and differs from the discussion link, else `Comments: {link}`. -/
def story_description (fetch_comment : Nat → Option CommentRecord)
    (story : StoryRecord) : String :=
  let comments_url := "https://news.ycombinator.com/item?id=" ++ toString story.id
  let top_comment := fetch_top_comment fetch_comment story
  if top_comment.getD "" ≠ "" then
    top_comment.getD ""
  else
    let original_url := story.url.getD ""
    if original_url != "" && original_url != comments_url then
      "Article: " ++ original_url
    else
      "Comments: " ++ comments_url

/-! ## Keyword source resolution in `main` -/

/-- Parsed command-line arguments (`argparse` namespace); `none` is the
`argparse` default for an unsupplied option. -/
structure Args where
  keywords : Option (List String) := none
  keywords_file : Option String := none
  keywords_env : Option String := none
deriving DecidableEq, Repr

/-- Python truthiness of an optional list (`if args.keywords:`). -/
def truthyList (o : Option (List String)) : Bool :=
  match o with
  | none => false
  | some l => !l.isEmpty

/-- Python truthiness of an optional string (`if args.keywords_file:`). -/
def truthyStr (o : Option String) : Bool :=
  match o with
  | none => false
  | some s => !s.isEmpty

/-- Embedding of the keyword-selection cascade in `main`, with the two
loaders (`load_keywords_from_file`, `load_keywords_from_env`) abstracted
as oracles: `if args.keywords: ... elif args.keywords_file: ... elif
args.keywords_env: ... else: []`. -/
def main_keywords (load_file load_env : String → List String)
    (args : Args) : List String :=
  if truthyList args.keywords then
    args.keywords.getD []
  else if truthyStr args.keywords_file then
    load_file (args.keywords_file.getD "")
  else if truthyStr args.keywords_env then
    load_env (args.keywords_env.getD "")
  else
    []

/-- Fetch oracle for the concrete selection example of the specification:
ids 1, 2, 3 resolve to the three titled records, everything else fails. -/
def example_fetch : Nat → Option StoryRecord := fun i =>
  if i = 1 then
    some { id := 1, title := some "GPT-4 is amazing", url := some "http://example.com/1" }
  else if i = 2 then
    some { id := 2, title := some "Cooking recipes", url := some "http://example.com/2" }
  else if i = 3 then
    some { id := 3, title := some "New AI model released", url := some "http://example.com/3" }
  else none

/-- Comment fetch oracle for the enrichment example: id 101 resolves to a
comment with text, everything else fails. -/
def example_comment_fetch : Nat → Option CommentRecord := fun i =>
  if i = 101 then some { id := 101, text := some "This is the top comment" }
  else none

/-- A story with three children, used to exercise enrichment. -/
def example_story_with_kids : StoryRecord :=
  { id := 1, title := some "Test Story", kids := some [101, 102, 103] }

/-- Comment fetch oracle returning a comment whose text is the empty
string. -/
def empty_text_fetch : Nat → Option CommentRecord := fun _ =>
  some { id := 101, text := some "" }

/-- A story with an article url and one child comment. -/
def example_story_with_url : StoryRecord :=
  { id := 9, title := some "T", url := some "http://example.com/a", kids := some [101] }

/-- Fetch oracle resolving id 7 to a record with a title and no url. -/
def no_url_fetch : Nat → Option StoryRecord := fun i =>
  if i = 7 then some { id := 7, title := some "Ask HN: something" } else none

/-- The record that `no_url_fetch` id 7 becomes after the url backfill. -/
def backfilled_seven : StoryRecord :=
  { id := 7, title := some "Ask HN: something", url := some (discussion_url 7) }

/-- The first record kept in the concrete selection example. -/
def gpt_story : StoryRecord :=
  { id := 1, title := some "GPT-4 is amazing", url := some "http://example.com/1" }

/-! ## Character-class lemmas -/

theorem char_toNat_ofNat_valid (n : Nat) (h : n.isValidChar) :
    (Char.ofNat n).toNat = n := by
  rw [Char.ofNat, dif_pos h]
  cases h with
  | inl h1 => simp [Char.ofNatAux, Char.toNat, UInt32.toNat]
  | inr h2 => simp [Char.ofNatAux, Char.toNat, UInt32.toNat]

theorem uint32_le_iff (a b : UInt32) : a ≤ b ↔ a.toNat ≤ b.toNat := Iff.rfl

theorem char_isUpper_iff (c : Char) :
    c.isUpper = true ↔ 65 ≤ c.toNat ∧ c.toNat ≤ 90 := by
  simp only [Char.isUpper, Bool.and_eq_true, decide_eq_true_eq, ge_iff_le]
  rw [uint32_le_iff, uint32_le_iff]
  rfl

theorem char_isLower_iff (c : Char) :
    c.isLower = true ↔ 97 ≤ c.toNat ∧ c.toNat ≤ 122 := by
  simp only [Char.isLower, Bool.and_eq_true, decide_eq_true_eq, ge_iff_le]
  rw [uint32_le_iff, uint32_le_iff]
  rfl

/-- ASCII lower-casing does not change whether a character is a word
character: `A`-`Z` maps into `a`-`z` and everything else is fixed. -/
theorem isWordChar_toLower (c : Char) : isWordChar c.toLower = isWordChar c := by
  have hdef : c.toLower =
      if c.toNat ≥ 65 ∧ c.toNat ≤ 90 then Char.ofNat (c.toNat + 32) else c := rfl
  rw [hdef]
  by_cases h : c.toNat ≥ 65 ∧ c.toNat ≤ 90
  · rw [if_pos h]
    have hvalid : (c.toNat + 32).isValidChar := Or.inl (by omega)
    have htn : (Char.ofNat (c.toNat + 32)).toNat = c.toNat + 32 :=
      char_toNat_ofNat_valid _ hvalid
    have hl : Char.isLower (Char.ofNat (c.toNat + 32)) = true := by
      rw [char_isLower_iff, htn]; omega
    have hu : c.isUpper = true := by rw [char_isUpper_iff]; omega
    simp [isWordChar, Char.isAlphanum, Char.isAlpha, hl, hu]
  · rw [if_neg h]

theorem matchesAt_eq_specMatchAt (cs ks : List Char)
    (h1 : ∃ c, ks.head? = some c ∧ isWordChar c = true)
    (h2 : ∃ c, ks.getLast? = some c ∧ isWordChar c = true)
    (i : Nat) : matchesAt cs ks i = specMatchAt cs ks i := by
  obtain ⟨k0, hk0, hw0⟩ := h1
  obtain ⟨kl, hkl, hwl⟩ := h2
  by_cases heq : ((cs.drop i).take ks.length).map Char.toLower = ks.map Char.toLower
  · have hkpos : 0 < ks.length := by
      cases ks with
      | nil => simp at hk0
      | cons a l => simp
    have hlen : min ks.length (cs.length - i) = ks.length := by
      have h := congrArg List.length heq
      simpa [List.length_take, List.length_drop] using h
    have hle2 : ks.length ≤ cs.length - i := hlen ▸ Nat.min_le_right _ _
    have hile : i + ks.length ≤ cs.length := by omega
    rw [List.head?_eq_getElem?] at hk0
    rw [List.getLast?_eq_getElem?] at hkl
    have e0 := congrArg (fun l => l[0]?) heq
    simp only [List.getElem?_map, List.getElem?_take_of_lt hkpos,
      List.getElem?_drop, hk0] at e0
    have hlast_lt : ks.length - 1 < ks.length := by omega
    have el := congrArg (fun l => l[ks.length - 1]?) heq
    simp only [List.getElem?_map, List.getElem?_take_of_lt hlast_lt,
      List.getElem?_drop, hkl] at el
    cases hc0 : cs[i + 0]? with
    | none => rw [hc0] at e0; simp at e0
    | some c0 =>
      rw [hc0] at e0
      simp only [Option.map_some'] at e0
      replace e0 : c0.toLower = k0.toLower := by injection e0
      cases hcl : cs[i + (ks.length - 1)]? with
      | none => rw [hcl] at el; simp at el
      | some cl =>
        rw [hcl] at el
        simp only [Option.map_some'] at el
        replace el : cl.toLower = kl.toLower := by injection el
        have hwc0 : isWordChar c0 = true := by
          calc isWordChar c0 = isWordChar c0.toLower := (isWordChar_toLower c0).symm
            _ = isWordChar k0.toLower := by rw [e0]
            _ = isWordChar k0 := isWordChar_toLower k0
            _ = true := hw0
        have hwcl : isWordChar cl = true := by
          calc isWordChar cl = isWordChar cl.toLower := (isWordChar_toLower cl).symm
            _ = isWordChar kl.toLower := by rw [el]
            _ = isWordChar kl := isWordChar_toLower kl
            _ = true := hwl
        have hwi : wordAt cs i = true := by
          unfold wordAt
          rw [show i = i + 0 from rfl, hc0]
          simpa using hwc0
        have hwlast : wordAt cs (i + (ks.length - 1)) = true := by
          unfold wordAt
          rw [hcl]
          simpa using hwcl
        have hprev : prevWordAt cs (i + ks.length) = true := by
          have hsucc : i + ks.length = (i + (ks.length - 1)) + 1 := by omega
          rw [hsucc]
          exact hwlast
        simp [matchesAt, specMatchAt, boundaryAt, lowerEq, heq, hwi, hprev, hile]
  · have hd : lowerEq ((cs.drop i).take ks.length) ks = false := by
      unfold lowerEq
      exact decide_eq_false heq
    simp [matchesAt, specMatchAt, hd]

/-- Claim C1 (amended): for every text and every keyword that is nonempty
and whose first and last characters are word characters (alphanumeric or
underscore), `matches_keyword` returns true if and only if the keyword
occurs in the text as a literal substring, compared case-insensitively,
with the match span not immediately adjacent on either side to an
alphanumeric or underscore character.  (For keywords whose edge
characters are not word characters, the regex `\b` anchors of the code
invert the boundary test, so the unrestricted claim fails; see the
counterexample.) -/
theorem matches_keyword_iff_boundary_occurrence (text keyword : String)
    (h1 : ∃ c, keyword.data.head? = some c ∧ isWordChar c = true)
    (h2 : ∃ c, keyword.data.getLast? = some c ∧ isWordChar c = true) :
    matches_keyword text keyword = spec_matches_keyword text keyword := by
  unfold matches_keyword spec_matches_keyword
  congr 1
  funext i
  exact matchesAt_eq_specMatchAt text.data keyword.data h1 h2 i

/-- Witness for claim C1: the amended equivalence applied to the concrete
text `New AI model` and keyword `AI`, whose edge characters are word
characters; both sides evaluate to true. -/
theorem matches_keyword_iff_boundary_occurrence_witness :
    matches_keyword "New AI model" "AI" = true ∧
    spec_matches_keyword "New AI model" "AI" = true := by
  have h := matches_keyword_iff_boundary_occurrence "New AI model" "AI"
    ⟨'A', rfl, rfl⟩ ⟨'I', rfl, rfl⟩
  exact ⟨by rw [h]; decide, by decide⟩

/-- Counterexample to claim C1 as stated: for the text `a + b` and the
keyword `+`, the keyword occurs as a literal substring flanked by spaces
(valid boundaries per the claim), yet the code returns false, because the
regex `\b` anchor around a non-word character demands an adjacent word
character instead. -/
theorem matches_keyword_claim_counterexample :
    ¬ (matches_keyword "a + b" "+" = spec_matches_keyword "a + b" "+") := by
  decide

/-- Claim C4: the concrete matcher examples of the specification all hold:
`AI` matches `New AI model`, `(AI) in healthcare`, `AI.` and `AI/ML`;
`AI` does not match `Airlines announce new routes`, nor inside
`Chairman`, `Waiter`, `Retail`, `Email`, `SAIL boat` or `PAID service`;
and `Machine` does not match `Machinery in factories`. -/
theorem matches_keyword_examples :
    matches_keyword "New AI model" "AI" = true ∧
    matches_keyword "(AI) in healthcare" "AI" = true ∧
    matches_keyword "AI." "AI" = true ∧
    matches_keyword "AI/ML" "AI" = true ∧
    matches_keyword "Airlines announce new routes" "AI" = false ∧
    matches_keyword "Machinery in factories" "Machine" = false ∧
    matches_keyword "Chairman" "AI" = false ∧
    matches_keyword "Waiter" "AI" = false ∧
    matches_keyword "Retail" "AI" = false ∧
    matches_keyword "Email" "AI" = false ∧
    matches_keyword "SAIL boat" "AI" = false ∧
    matches_keyword "PAID service" "AI" = false := by
  decide

/-- Unfolding of `filter_stories` as an order-preserving `filterMap` of
the per-id decision: iterate the candidate ids in order, resolve each,
and keep or drop the (possibly backfilled) record independently of every
other id. -/
theorem process_story_none_title (keywords : List String) (s : StoryRecord)
    (ht : s.title = none) : process_story keywords s = none := by
  unfold process_story
  rw [ht]

theorem process_story_some_title (keywords : List String) (s : StoryRecord)
    (t : String) (ht : s.title = some t) :
    process_story keywords s =
      if keywords.isEmpty ||
          keywords.any (fun keyword => matches_keyword t keyword) then
        some (if s.url = none then
          { s with url := some (discussion_url s.id) } else s)
      else none := by
  unfold process_story
  rw [ht]

/-- Unfolding of `filter_stories` as an order-preserving `filterMap` of
the per-id decision: iterate the candidate ids in order, resolve each,
and keep or drop the (possibly backfilled) record independently of every
other id. -/
theorem filter_stories_eq (fetch : Nat → Option StoryRecord)
    (keywords : List String) (ids : List Nat) :
    filter_stories fetch ids keywords =
      ids.filterMap fun i => (fetch i).bind (process_story keywords) := by
  induction ids with
  | nil => rfl
  | cons i rest ih =>
    rw [List.filterMap_cons]
    cases hf : fetch i with
    | none =>
      simp only [filter_stories, hf, Option.none_bind]
      exact ih
    | some s =>
      simp only [filter_stories, hf, Option.some_bind]
      cases ht : s.title with
      | none =>
        rw [process_story_none_title keywords s ht]
        exact ih
      | some t =>
        rw [process_story_some_title keywords s t ht, ht]
        dsimp only
        split
        · rw [ih]
        · exact ih

/-- Claim C2: `filter_stories` is the order-preserving `filterMap` that,
per candidate id, keeps exactly the records that resolve successfully,
have a title, and (when the keyword list is nonempty) whose title matches
at least one keyword, silently skipping unresolved or title-less records,
with no re-sorting and no deduplication; and on the concrete instance
with titles `GPT-4 is amazing` (id 1), `Cooking recipes` (id 2),
`New AI model released` (id 3) and keywords `GPT`, `AI`, the result is
the records with ids 1 and 3 in that order. -/
theorem filter_stories_select_spec :
    (∀ (fetch : Nat → Option StoryRecord) (ids : List Nat)
      (keywords : List String),
      filter_stories fetch ids keywords =
        ids.filterMap fun i => (fetch i).bind (process_story keywords)) ∧
    (filter_stories example_fetch [1, 2, 3] ["GPT", "AI"]).map StoryRecord.id
      = [1, 3] :=
  ⟨fun fetch ids keywords => filter_stories_eq fetch keywords ids, by decide⟩

/-- Claim C3: with an empty keyword list, `filter_stories` is
pass-through: it returns every resolvable record that has a title, in
input order and url-backfilled, rejecting none; and on an empty id list
it returns the empty sequence for every keyword list. -/
theorem filter_stories_passthrough :
    (∀ (fetch : Nat → Option StoryRecord) (ids : List Nat),
      filter_stories fetch ids [] =
        ids.filterMap fun i => (fetch i).bind fun story =>
          match story.title with
          | none => none
          | some _ => some (if story.url = none then
              { story with url := some (discussion_url story.id) } else story)) ∧
    (∀ (fetch : Nat → Option StoryRecord) (keywords : List String),
      filter_stories fetch [] keywords = []) := by
  constructor
  · intro fetch ids
    rw [filter_stories_eq]
    congr 1
  · intro fetch keywords
    rfl

/-- Membership in the output of `filter_stories` comes from some candidate
id whose fetched record the per-id decision kept. -/
theorem mem_filter_stories (fetch : Nat → Option StoryRecord)
    (ids : List Nat) (keywords : List String) (s : StoryRecord)
    (hs : s ∈ filter_stories fetch ids keywords) :
    ∃ i ∈ ids, ∃ orig, fetch i = some orig ∧
      process_story keywords orig = some s := by
  rw [filter_stories_eq, List.mem_filterMap] at hs
  obtain ⟨i, hi, hproc⟩ := hs
  cases hf : fetch i with
  | none => rw [hf] at hproc; simp at hproc
  | some orig =>
    rw [hf] at hproc
    simp only [Option.some_bind] at hproc
    exact ⟨i, hi, orig, hf, hproc⟩

/-- A record kept by the per-id decision is the fetched record with at
most its url backfilled. -/
theorem process_story_some_inv (keywords : List String) (orig s : StoryRecord)
    (h : process_story keywords orig = some s) :
    s = (if orig.url = none then
      { orig with url := some (discussion_url orig.id) } else orig) := by
  cases ht : orig.title with
  | none =>
    rw [process_story_none_title keywords orig ht] at h
    exact absurd h (by simp)
  | some t =>
    rw [process_story_some_title keywords orig t ht] at h
    split at h
    · injection h with h2
      rw [ht] at h2
      exact h2.symm
    · exact absurd h (by simp)

/-- Claim C5: every record produced by the selection pipeline has a url.
It originates from a fetched record, and when that record lacked a url
field the output carries the synthesized discussion link containing the
record id, otherwise the original url. -/
theorem filter_stories_url_present (fetch : Nat → Option StoryRecord)
    (ids : List Nat) (keywords : List String) (s : StoryRecord)
    (hs : s ∈ filter_stories fetch ids keywords) :
    s.url ≠ none ∧
    ∃ i ∈ ids, ∃ orig, fetch i = some orig ∧
      ((orig.url = none ∧ s.url = some (discussion_url s.id)) ∨
        s.url = orig.url) := by
  obtain ⟨i, hi, orig, hf, hproc⟩ := mem_filter_stories fetch ids keywords s hs
  have hse := process_story_some_inv keywords orig s hproc
  by_cases hu : orig.url = none
  · rw [if_pos hu] at hse
    subst hse
    refine ⟨by simp, i, hi, orig, hf, Or.inl ⟨hu, by simp⟩⟩
  · rw [if_neg hu] at hse
    subst hse
    exact ⟨hu, i, hi, s, hf, Or.inr rfl⟩

/-- Witness for claim C5: applied to the concrete fetch oracle in which
id 7 resolves to a titled record without a url; the output record is the
backfilled one. -/
theorem filter_stories_url_present_witness :
    backfilled_seven.url ≠ none ∧
    ∃ i ∈ [7], ∃ orig, no_url_fetch i = some orig ∧
      ((orig.url = none ∧
          backfilled_seven.url = some (discussion_url backfilled_seven.id)) ∨
        backfilled_seven.url = orig.url) :=
  filter_stories_url_present no_url_fetch [7] [] backfilled_seven (by decide)

/-- Claim C10: the selection pipeline does not alter resolved records
except for the url backfill: every output record comes from a fetched
record with identical id, title, time and kids, and its url equals the
original url when that was present, else the synthesized discussion
link. -/
theorem filter_stories_frame (fetch : Nat → Option StoryRecord)
    (ids : List Nat) (keywords : List String) (s : StoryRecord)
    (hs : s ∈ filter_stories fetch ids keywords) :
    ∃ i ∈ ids, ∃ orig, fetch i = some orig ∧
      s.id = orig.id ∧ s.title = orig.title ∧ s.time = orig.time ∧
      s.kids = orig.kids ∧
      (orig.url ≠ none → s.url = orig.url) ∧
      (orig.url = none → s.url = some (discussion_url orig.id)) := by
  obtain ⟨i, hi, orig, hf, hproc⟩ := mem_filter_stories fetch ids keywords s hs
  have hse := process_story_some_inv keywords orig s hproc
  by_cases hu : orig.url = none
  · rw [if_pos hu] at hse
    subst hse
    exact ⟨i, hi, orig, hf, rfl, rfl, rfl, rfl, fun h => absurd hu h, fun _ => rfl⟩
  · rw [if_neg hu] at hse
    subst hse
    exact ⟨i, hi, s, hf, rfl, rfl, rfl, rfl, fun _ => rfl, fun h => absurd h hu⟩

/-- Witness for claim C10: applied to the record with id 1 kept by the
concrete selection example; all fields pass through unchanged. -/
theorem filter_stories_frame_witness :
    ∃ i ∈ [1, 2, 3], ∃ orig, example_fetch i = some orig ∧
      gpt_story.id = orig.id ∧ gpt_story.title = orig.title ∧
      gpt_story.time = orig.time ∧ gpt_story.kids = orig.kids ∧
      (orig.url ≠ none → gpt_story.url = orig.url) ∧
      (orig.url = none → gpt_story.url = some (discussion_url orig.id)) :=
  filter_stories_frame example_fetch [1, 2, 3] ["GPT", "AI"] gpt_story (by decide)

/-- Claim C6: `fetch_top_comment` returns none when the story has no
kids field or an empty kids list; when kids is nonempty it returns the
bind of the fetched first kid and its text field (none on fetch failure
or missing text, the text itself otherwise), and its result depends only
on the oracle value at the first kid, never on later siblings. -/
theorem fetch_top_comment_cases (f g : Nat → Option CommentRecord)
    (story : StoryRecord) :
    (story.kids = none → fetch_top_comment f story = none) ∧
    (story.kids = some [] → fetch_top_comment f story = none) ∧
    (∀ k rest, story.kids = some (k :: rest) →
      fetch_top_comment f story = (f k).bind CommentRecord.text) ∧
    (∀ k rest, story.kids = some (k :: rest) → f k = g k →
      fetch_top_comment f story = fetch_top_comment g story) := by
  refine ⟨?_, ?_, ?_, ?_⟩
  · intro h
    unfold fetch_top_comment
    rw [h]
    rfl
  · intro h
    unfold fetch_top_comment
    rw [h]
    rfl
  · intro k rest h
    unfold fetch_top_comment
    rw [h]
    show (match f k with
      | none => none
      | some comment => comment.text) = (f k).bind CommentRecord.text
    cases f k with
    | none => rfl
    | some c => rfl
  · intro k rest h hfg
    unfold fetch_top_comment
    rw [h]
    show (match f k with
      | none => none
      | some comment => comment.text) =
      (match g k with
      | none => none
      | some comment => comment.text)
    rw [hfg]

/-- Witness for claim C6: the kids branch applied to the concrete story
with kids 101, 102, 103 and an oracle resolving 101 to a comment with
text; the result is exactly that text. -/
theorem fetch_top_comment_cases_witness :
    fetch_top_comment example_comment_fetch example_story_with_kids =
      some "This is the top comment" := by
  have h := (fetch_top_comment_cases example_comment_fetch
    example_comment_fetch example_story_with_kids).2.2.1 101 [102, 103] rfl
  rw [h]
  decide

/-- Claim C7: keyword-source selection in `main` follows the precedence
explicit list, then file path, then environment variable, then none.
A configured explicit list is used and neither loader influences the
result; a configured file path without an explicit list makes the result
the file loader output, independent of the environment loader; with no
source configured the keyword set is empty. -/
theorem main_keywords_precedence (lf le lf2 le2 : String → List String)
    (args : Args) :
    (∀ ks, args.keywords = some ks → ks ≠ [] →
      main_keywords lf le args = ks ∧
      main_keywords lf le args = main_keywords lf2 le2 args) ∧
    (∀ p, args.keywords = none → args.keywords_file = some p → p ≠ "" →
      main_keywords lf le args = lf p ∧
      main_keywords lf le args = main_keywords lf le2 args) ∧
    (args.keywords = none → args.keywords_file = none →
      args.keywords_env = none → main_keywords lf le args = []) := by
  refine ⟨?_, ?_, ?_⟩
  · intro ks hk hne
    have hte : truthyList (some ks) = true := by
      simpa [truthyList] using hne
    constructor
    · simp [main_keywords, hk, hte]
    · simp [main_keywords, hk, hte]
  · intro p hk hp hpne
    have htfe : truthyStr (some p) = true := by
      show (!p.isEmpty) = true
      rw [Bool.not_eq_true', Bool.eq_false_iff]
      intro hc
      exact hpne ((String.isEmpty_iff p).mp hc)
    constructor
    · simp [main_keywords, hk, hp, htfe, truthyList]
    · simp [main_keywords, hk, hp, htfe, truthyList]
  · intro hk hf he
    simp [main_keywords, hk, hf, he, truthyList, truthyStr]

/-- Witness for claim C7: applied to arguments with an explicit keyword
list and two loader pairs; the result is the explicit list under both. -/
theorem main_keywords_precedence_witness :
    main_keywords (fun _ => ["F"]) (fun _ => ["E"])
        { keywords := some ["Arg1", "Arg2"] } = ["Arg1", "Arg2"] ∧
    main_keywords (fun _ => ["F"]) (fun _ => ["E"])
        { keywords := some ["Arg1", "Arg2"] } =
      main_keywords (fun _ => ["F2"]) (fun _ => ["E2"])
        { keywords := some ["Arg1", "Arg2"] } :=
  (main_keywords_precedence (fun _ => ["F"]) (fun _ => ["E"])
    (fun _ => ["F2"]) (fun _ => ["E2"])
    { keywords := some ["Arg1", "Arg2"] }).1 ["Arg1", "Arg2"] rfl (by decide)

/-- Claim C8: the fetchers translate every transport-level failure into
an absent result instead of raising: `fetch_story_details` and
`fetch_comment_details` return none exactly on failure and the parsed
record on success, and `fetch_top_stories` returns the fetched id list
truncated to at most `limit` elements, and the empty list on failure. -/
theorem fetchers_error_handling (netS : Nat → Transport StoryRecord)
    (netC : Nat → Transport CommentRecord) (netL : Transport (List Nat))
    (id limit : Nat) :
    (∀ e, netS id = .failure e → fetch_story_details netS id = none) ∧
    (∀ s, netS id = .success s → fetch_story_details netS id = some s) ∧
    (∀ e, netC id = .failure e → fetch_comment_details netC id = none) ∧
    (∀ c, netC id = .success c → fetch_comment_details netC id = some c) ∧
    (∀ e, netL = .failure e → fetch_top_stories netL limit = []) ∧
    (∀ ids, netL = .success ids → fetch_top_stories netL limit = ids.take limit) ∧
    (fetch_top_stories netL limit).length ≤ limit := by
  refine ⟨?_, ?_, ?_, ?_, ?_, ?_, ?_⟩
  · intro e h
    unfold fetch_story_details
    rw [h]
  · intro s h
    unfold fetch_story_details
    rw [h]
  · intro e h
    unfold fetch_comment_details
    rw [h]
  · intro c h
    unfold fetch_comment_details
    rw [h]
  · intro e h
    unfold fetch_top_stories
    rw [h]
  · intro ids h
    unfold fetch_top_stories
    rw [h]
  · cases netL with
    | success ids =>
      show (ids.take limit).length ≤ limit
      simp
    | failure e =>
      show ([] : List Nat).length ≤ limit
      simp

/-- Witness for claim C8: a failing story transport yields none, and a
successful top-stories transport of five ids with limit 3 yields the
first three ids. -/
theorem fetchers_error_handling_witness :
    fetch_story_details (fun _ => .failure "Network error") 12345 = none ∧
    fetch_top_stories (.success [1, 2, 3, 4, 5]) 3 = [1, 2, 3] := by
  have h := fetchers_error_handling (fun _ => .failure "Network error")
    (fun _ => .failure "Network error") (.success [1, 2, 3, 4, 5]) 12345 3
  exact ⟨h.1 "Network error" rfl, h.2.2.2.2.2.1 [1, 2, 3, 4, 5] rfl⟩

/-- Counterexample to claim C9 as stated: for the concrete story with an
article url and one child comment whose text is the empty string,
enrichment succeeds (it returns the empty text, not None), yet the
emitted summary is the Article fallback rather than the comment text,
because the Python code tests the comment text for truthiness, and the
empty string is falsy. -/
theorem story_description_claim_counterexample :
    fetch_top_comment empty_text_fetch example_story_with_url = some "" ∧
    story_description empty_text_fetch example_story_with_url =
      "Article: http://example.com/a" := by
  constructor
  · decide
  · decide

/-- Claim C9 (amended): the emitted summary is the top comment text when
enrichment succeeds with non-empty text; when enrichment yields None or
the empty string, the summary is `Article: {original_url}` if the story
has a non-empty original url distinct from its discussion url, and
otherwise `Comments: {discussion_url}`; no other fallback tier exists. -/
theorem story_description_cases (fc : Nat → Option CommentRecord)
    (story : StoryRecord) :
    (∀ t, fetch_top_comment fc story = some t → t ≠ "" →
      story_description fc story = t) ∧
    ((fetch_top_comment fc story = none ∨
        fetch_top_comment fc story = some "") →
      (∀ u, story.url = some u → u ≠ "" → u ≠ discussion_url story.id →
        story_description fc story = "Article: " ++ u) ∧
      ((story.url = none ∨ story.url = some "" ∨
          story.url = some (discussion_url story.id)) →
        story_description fc story = "Comments: " ++ discussion_url story.id)) := by
  constructor
  · intro t htc hne
    simp [story_description, htc, hne]
  · intro hdis
    have hget : (fetch_top_comment fc story).getD "" = "" := by
      cases hdis with
      | inl h => rw [h]; rfl
      | inr h => rw [h]; rfl
    constructor
    · intro u hu hune huc
      simp [story_description, hget, hu, hune, discussion_url] at huc ⊢
      simp [bne_iff_ne, huc, hune]
    · intro hurl
      rcases hurl with h | h | h
      · simp [story_description, hget, h, discussion_url]
      · simp [story_description, hget, h, discussion_url]
      · simp [story_description, hget, h, discussion_url]

/-- Witness for claim C9: the amended statement applied to the concrete
story with kids and an oracle returning non-empty comment text; the
summary is exactly that text. -/
theorem story_description_cases_witness :
    story_description example_comment_fetch example_story_with_kids =
      "This is the top comment" :=
  (story_description_cases example_comment_fetch example_story_with_kids).1
    "This is the top comment" (by decide) (by decide)
